import Mathlib

/-!
Verification of the natural-language specification of `src/MasiveDelete.py`
(a Zoho CRM bulk-operation command-line script) against a shallow embedding
of its code in Lean.

The embedding models:
* the token cache (`_load_cached_token`, `get_access_token`, lines 21-63),
* the authenticated wrapper `api_request` (lines 65-84),
* the chunking generator `chunked` (lines 176-179),
* the batch delete loop `delete_batch_from_file` (lines 160-197),
* the polling loop `check_job_status` (lines 120-132),
* the download routine `download_all_pages` (lines 135-158),
* the job record written by `create_bulk_read_job` (lines 106-118),
and the HTTP-call traces of the action handlers.

Time values are modelled as integers (the code compares `expires_at -
time.time() > SKEW`; only the ordering matters).  HTTP responses are
modelled by their status code; `requests.Response.raise_for_status` raises
exactly for status codes in [400, 600).
-/

/-- `SKEW = 30` (line 18): safety margin in seconds. -/
def SKEW : Int := 30

/-- The possible states of the token-cache file, as `_load_cached_token`
distinguishes them: the file may be missing, unreadable, not valid JSON,
or a JSON object whose `access_token` / `expires_at` fields may each be
absent.  Any exception path (missing file, read error, JSON decode error,
missing key) is caught by the bare `except` at line 27. -/
inductive CacheState where
  | missing
  | unreadable
  | badJson
  | record (access_token : Option String) (expires_at : Option Int)
deriving DecidableEq

/-- `_load_cached_token` (lines 21-29): returns the cached `access_token`
when the file parses and `expires_at - time.time() > SKEW`; every failure
(missing file, bad JSON, missing key) and every non-fresh cache yields
`None`.  Note the code reads `data["expires_at"]` first, so a record with
an `expires_at` but no `access_token` only raises (hence returns `None`)
when the freshness test passes. -/
def load_cached_token (cache : CacheState) (now : Int) : Option String :=
  match cache with
  | .record tok exp =>
      match exp with
      | some e => if e - now > SKEW then tok else none
      | none => none
  | _ => none

/-- Result of `get_access_token`: the returned token, and whether a refresh
request to the vendor token endpoint was made. -/
structure TokenResult where
  token : String
  refreshed : Bool
deriving DecidableEq

/-- `get_access_token` (lines 37-63).  `fresh` stands for the token the
vendor token endpoint would return.  The Python code does
`if cached: return cached`, so a cached token is returned only when
`_load_cached_token` returned a value that is truthy — for a string, when
it is non-empty. -/
def get_access_token (force_refresh : Bool) (cache : CacheState) (now : Int)
    (fresh : String) : TokenResult :=
  if force_refresh then ⟨fresh, true⟩
  else
    match load_cached_token cache now with
    | some c => if c = "" then ⟨fresh, true⟩ else ⟨c, false⟩
    | none => ⟨fresh, true⟩

/-- `Response.raise_for_status` raises `HTTPError` exactly for status codes
in [400, 600). -/
def raisesStatus (s : Nat) : Bool := decide (400 ≤ s ∧ s < 600)

/-- A status code is a 2xx success. -/
def is2xx (s : Nat) : Bool := decide (200 ≤ s ∧ s < 300)

/-- Decidable equality for `Except`, used so that runs of the embedded
functions can be compared by `decide`. -/
def exceptDecEq [DecidableEq ε] [DecidableEq α] : DecidableEq (Except ε α)
  | .error a, .error b =>
      if h : a = b then .isTrue (h ▸ rfl)
      else .isFalse (fun hc => h (Except.error.inj hc))
  | .error _, .ok _ => .isFalse (fun hc => Except.noConfusion hc)
  | .ok _, .error _ => .isFalse (fun hc => Except.noConfusion hc)
  | .ok a, .ok b =>
      if h : a = b then .isTrue (h ▸ rfl)
      else .isFalse (fun hc => h (Except.ok.inj hc))

instance [DecidableEq ε] [DecidableEq α] : DecidableEq (Except ε α) :=
  exceptDecEq

/-- Fuel-indexed worker for `chunked`.  The generator at lines 176-179
takes the next element `first` and then up to `size - 1` further elements
(`islice(it, size - 1)`) to form each chunk.  Each chunk consumes at least
one element, so `l.length` is enough fuel. -/
def chunkedGo (size : Nat) : Nat → List α → List (List α)
  | _, [] => []
  | 0, _ :: _ => []
  | fuel + 1, x :: xs =>
      (x :: xs.take (size - 1)) :: chunkedGo size fuel (xs.drop (size - 1))

/-- `chunked` (lines 176-179): split a list into chunks of `size`, the last
chunk possibly shorter. -/
def chunked (size : Nat) (l : List α) : List (List α) :=
  chunkedGo size l.length l

/-- An uncaught exception of the delete loop (lines 185-195): `.typeErr`
is the `TypeError` raised by `",".join(batch)` at line 186 when a batch
holds a `None` (a row lacked the `Id` cell); `.http s` is the `HTTPError`
raised by `resp.raise_for_status()` at line 194 for a status `s` in
[400, 600). -/
inductive DeleteError where
  | typeErr
  | http (statusCode : Nat)
deriving DecidableEq

/-- Outcome of the delete loop of `delete_batch_from_file` (lines 184-195):
`issued` lists the batches for which a DELETE request was actually sent (in
order), `result` is `.ok total` when all batches succeeded and
`.error (e, totalAtFailure)` when exception `e` escaped, carrying the
value `total_deleted` had at that moment. -/
structure DeleteRun where
  issued : List (List (Option String))
  result : Except (DeleteError × Nat) Nat
deriving DecidableEq

/-- The delete loop (lines 185-195): for each batch, first
`ids_str = ",".join(batch)` (line 186), which raises `TypeError` — before
any request for this batch — if the batch holds a `None`; then the DELETE
request is sent (`status idx` is the response status for the `idx`-th
issued DELETE), then `raise_for_status`, which raises for a status in
[400, 600), then `total_deleted += len(batch)`.  Either exception stops
the loop; on an HTTP error the failing batch's request was already sent,
on a `TypeError` it was not. -/
def runDeletes (status : Nat → Nat) :
    Nat → Nat → List (List (Option String)) → DeleteRun
  | _, total, [] => ⟨[], .ok total⟩
  | idx, total, b :: bs =>
      if none ∈ b then ⟨[], .error (.typeErr, total)⟩
      else if raisesStatus (status idx) then
        ⟨[b], .error (.http (status idx), total)⟩
      else
        let r := runDeletes status (idx + 1) (total + b.length) bs
        ⟨b :: r.issued, r.result⟩

/-- Outcome of `delete_batch_from_file`: either the `RuntimeError` raised
at line 170 before any HTTP request, or a run of the delete loop. -/
inductive DeleteOutcome where
  | headerError
  | run (r : DeleteRun)
deriving DecidableEq

/-- Index of the last occurrence of `k` in a list.  `csv.DictReader` builds
each row dict from `zip(fieldnames, row)`; with duplicate header names the
later assignment wins, so `row[k]` is the cell at the last occurrence
of `k` in the header (or `None`, the `restval`, when the row is shorter). -/
def lastIdxOf (k : String) : List String → Option Nat
  | [] => none
  | x :: xs =>
      match lastIdxOf k xs with
      | some i => some (i + 1)
      | none => if x = k then some 0 else none

/-- The identifier list read at lines 171-172: for each CSV record,
`row["Id"]`, i.e. the cell at the last `"Id"` column (`none` models the
`restval None` of a row shorter than the header).  `rows` are the records
as yielded by `csv.DictReader`, which itself skips blank lines, so every
row is non-empty.  Defined as `[]` when the header has no `"Id"` column, a
case `delete_batch_from_file` rejects before reaching this point. -/
def extractIds (header : List String) (rows : List (List String)) :
    List (Option String) :=
  match lastIdxOf "Id" header with
  | some i => rows.map (fun r => r.get? i)
  | none => []

/-- `delete_batch_from_file` (lines 160-197): raise `RuntimeError` when the
header has no column named exactly `"Id"` (line 169, case-sensitive),
otherwise read the `"Id"` column, chunk it into batches of 100 and run the
delete loop.  `status idx` is the response status of the `idx`-th issued
DELETE. -/
def delete_batch_from_file (header : List String) (rows : List (List String))
    (status : Nat → Nat) : DeleteOutcome :=
  if "Id" ∈ header then
    .run (runDeletes status 0 0 (chunked 100 (extractIds header rows)))
  else .headerError

/-- The batches for which a DELETE request was sent: none at all when the
`RuntimeError` was raised. -/
def DeleteOutcome.issued : DeleteOutcome → List (List (Option String))
  | .headerError => []
  | .run r => r.issued

/-- The terminal job states of `check_job_status`: `"COMPLETED"` returns,
`"FAILURE"` and `"FAILED"` raise (lines 126-130). -/
def isTerminalState (s : String) : Bool :=
  s = "COMPLETED" || s = "FAILURE" || s = "FAILED"

/-- `check_job_status` (lines 120-132), fuel-indexed.  `state n` /
`result n` are the `state` and `result` fields of the `n`-th poll response.
Arguments: fuel, next poll index, seconds slept so far.  Each non-terminal
state sleeps 5 seconds (line 132) and polls again; `none` means the loop
was still running after `fuel` polls.  On termination it returns the
outcome (`.ok (result n)` on `"COMPLETED"`, `.error` with the message of
the `RuntimeError` at line 130 otherwise) and the total seconds slept. -/
def check_job_status (state result : Nat → String) :
    Nat → Nat → Nat → Option (Except String String × Nat)
  | 0, _, _ => none
  | fuel + 1, i, slept =>
      if state i = "COMPLETED" then some (.ok (result i), slept)
      else if state i = "FAILURE" || state i = "FAILED" then
        some (.error "Bulk read job falló", slept)
      else check_job_status state result fuel (i + 1) (slept + 5)

/-- An HTTP call of the script, tagged by how it is issued: `viaApi` for a
call through the authenticated wrapper `api_request` (which attaches the
Authorization header and retries once on 401), `direct` for a call made
directly on `SESSION` (header attached by hand, no retry). -/
inductive HttpCall where
  | viaApi (method endpoint : String)
  | direct (method url : String)
deriving DecidableEq

/-- Whether a call goes through `api_request`. -/
def HttpCall.isViaApi : HttpCall → Bool
  | viaApi _ _ => true
  | direct _ _ => false

/-- HTTP calls of `list_fields` (lines 87-90). -/
def listFieldsCalls (_module_name : String) : List HttpCall :=
  [.viaApi "GET" "/crm/v8/settings/fields"]

/-- HTTP calls of `create_bulk_read_job` (line 105). -/
def createBulkReadJobCalls (_module_name : String) : List HttpCall :=
  [.viaApi "POST" "/crm/bulk/v8/read"]

/-- HTTP calls of a `check_job_status` run of `polls` poll iterations
(line 122). -/
def checkJobStatusCalls (job_id : String) (polls : Nat) : List HttpCall :=
  List.replicate polls (.viaApi "GET" ("/crm/bulk/v8/read/" ++ job_id))

/-- HTTP calls of the delete loop of `delete_batch_from_file`: one
`SESSION.delete` per batch (line 188), NOT through `api_request`. -/
def deleteBatchCalls (module_name : String) (batches : List (List String)) :
    List HttpCall :=
  batches.map (fun b =>
    .direct "DELETE"
      ("/crm/v8/" ++ module_name ++ "?ids=" ++ String.intercalate "," b ++
        "&wf_trigger=true"))

/-- The initial job result fetched by `download_all_pages` (lines 137-145):
the fields the code reads from `job["result"]`. -/
structure BulkJobResult where
  page : Nat
  next_page_token : Option String
  more_records : Bool
  download_url : String
deriving DecidableEq

/-- Observable effects of `download_all_pages`: the HTTP calls it makes and
the local files it writes. -/
structure DownloadRun where
  calls : List HttpCall
  filesWritten : List String
deriving DecidableEq

/-- `download_all_pages` (lines 135-158): one status fetch through
`api_request`, then one direct `SESSION.get` for `result["download_url"]`
(line 153), written to `{pre}_page_{page}.zip`.  The code reads
`next_page_token` and `more_records` (lines 144-145) but never uses them:
no further page is requested. -/
def download_all_pages (job_id : String) (result : BulkJobResult)
    (pre : String) : DownloadRun :=
  { calls := [.viaApi "GET" ("/crm/bulk/v8/read/" ++ job_id),
              .direct "GET" result.download_url],
    filesWritten := [pre ++ "_page_" ++ toString result.page ++ ".zip"] }

/-- The dict literal built by `create_bulk_read_job` at lines 107-111,
as an ordered key/value list.  Its first entry is written `name: name` in
the source — the KEY is the variable `name` (the job name), not the string
`"name"`. -/
def dataToSave (name job_id module_name : String) : List (String × String) :=
  [(name, name), ("id", job_id), ("module", module_name)]

/-- History update of `create_bulk_read_job` (lines 112-117): append the
new record to the stored list, or start a fresh one-element list when no
history file exists. -/
def historyAfterCreate (existing : Option (List (List (String × String))))
    (rec : List (String × String)) : List (List (String × String)) :=
  match existing with
  | some h => h ++ [rec]
  | none => [rec]

theorem chunkedGo_flatten (size : Nat) :
    ∀ (fuel : Nat) (l : List α), l.length ≤ fuel →
      (chunkedGo size fuel l).flatten = l := by
  intro fuel
  induction fuel with
  | zero =>
      intro l hl
      cases l with
      | nil => rfl
      | cons x xs => simp at hl
  | succ f ih =>
      intro l hl
      cases l with
      | nil => rfl
      | cons x xs =>
          simp only [chunkedGo, List.flatten_cons]
          rw [ih (xs.drop (size - 1)) (by simp at hl ⊢; omega)]
          simp [List.take_append_drop]

theorem chunked_flatten (size : Nat) (l : List α) :
    (chunked size l).flatten = l :=
  chunkedGo_flatten size l.length l (Nat.le_refl _)

theorem chunkedGo_length_100 :
    ∀ (fuel : Nat) (l : List α), l.length ≤ fuel →
      (chunkedGo 100 fuel l).length = (l.length + 99) / 100 := by
  intro fuel
  induction fuel with
  | zero =>
      intro l hl
      cases l with
      | nil => simp [chunkedGo]
      | cons x xs => simp at hl
  | succ f ih =>
      intro l hl
      cases l with
      | nil => simp [chunkedGo]
      | cons x xs =>
          simp only [chunkedGo, List.length_cons]
          rw [ih (xs.drop (100 - 1)) (by simp at hl ⊢; omega)]
          simp only [List.length_drop]
          omega

theorem chunked_length_100 (l : List α) :
    (chunked 100 l).length = (l.length + 99) / 100 :=
  chunkedGo_length_100 l.length l (Nat.le_refl _)

theorem chunkedGo_mem_length_le :
    ∀ (fuel : Nat) (l c : List α), l.length ≤ fuel →
      c ∈ chunkedGo 100 fuel l → c.length ≤ 100 := by
  intro fuel
  induction fuel with
  | zero =>
      intro l c hl hc
      cases l with
      | nil => simp [chunkedGo] at hc
      | cons x xs => simp at hl
  | succ f ih =>
      intro l c hl hc
      cases l with
      | nil => simp [chunkedGo] at hc
      | cons x xs =>
          simp only [chunkedGo, List.mem_cons] at hc
          rcases hc with rfl | hc
          · simp only [List.length_cons, List.length_take]
            omega
          · exact ih (xs.drop (100 - 1)) c (by simp at hl ⊢; omega) hc

theorem chunkedGo_getD_length :
    ∀ (fuel : Nat) (l : List α) (i : Nat), l.length ≤ fuel →
      i + 1 < (chunkedGo 100 fuel l).length →
      ((chunkedGo 100 fuel l).getD i []).length = 100 := by
  intro fuel
  induction fuel with
  | zero =>
      intro l i hl hi
      cases l with
      | nil => simp [chunkedGo] at hi
      | cons x xs => simp at hl
  | succ f ih =>
      intro l i hl hi
      cases l with
      | nil => simp [chunkedGo] at hi
      | cons x xs =>
          have hdrop : (xs.drop (100 - 1)).length ≤ f := by
            simp at hl ⊢; omega
          cases i with
          | zero =>
              simp only [chunkedGo, List.length_cons] at hi
              have hlen := chunkedGo_length_100 f (xs.drop (100 - 1)) hdrop
              simp only [List.length_drop] at hlen
              simp only [chunkedGo, List.getD_cons_zero, List.length_cons,
                List.length_take]
              omega
          | succ j =>
              simp only [chunkedGo, List.length_cons] at hi
              simp only [chunkedGo, List.getD_cons_succ]
              exact ih (xs.drop (100 - 1)) j hdrop (by omega)

/-- Claim C3: the chunking used by the batch delete splits any list of `N`
identifiers into `⌈N / 100⌉` batches (in `Nat` arithmetic,
`(N + 99) / 100`), each of size at most 100, all but possibly the last of
size exactly 100, and their in-order concatenation is the original list
(hence every identifier occurs in exactly one batch, exactly once). -/
theorem claim_c3 (l : List String) :
    (chunked 100 l).length = (l.length + 99) / 100 ∧
    (chunked 100 l).flatten = l ∧
    (∀ c ∈ chunked 100 l, c.length ≤ 100) ∧
    (∀ i, i + 1 < (chunked 100 l).length →
      ((chunked 100 l).getD i []).length = 100) :=
  ⟨chunked_length_100 l, chunked_flatten 100 l,
   fun c hc => chunkedGo_mem_length_le l.length l c (Nat.le_refl _) hc,
   fun i hi => chunkedGo_getD_length l.length l i (Nat.le_refl _) hi⟩

/-- Witness for C3 at a concrete 101-element list: two batches, the first
of size exactly 100. -/
theorem claim_c3_witness :
    ((chunked 100 (List.replicate 101 "x")).getD 0 []).length = 100 :=
  (claim_c3 (List.replicate 101 "x")).2.2.2 0 (by decide)


theorem chunked_mem_mem {size : Nat} {l c : List α} {x : α}
    (hc : c ∈ chunked size l) (hx : x ∈ c) : x ∈ l := by
  have h := List.mem_flatten.mpr ⟨c, hc, hx⟩
  rwa [chunked_flatten] at h

theorem runDeletes_stops (status : Nat → Nat) :
    ∀ (chunks : List (List (Option String))) (k idx total : Nat),
      (∀ b ∈ chunks, none ∉ b) →
      (∀ i, i < k → raisesStatus (status (idx + i)) = false) →
      raisesStatus (status (idx + k)) = true →
      k < chunks.length →
      runDeletes status idx total chunks =
        ⟨chunks.take (k + 1),
         .error (.http (status (idx + k)),
           total + ((chunks.take k).map List.length).sum)⟩ := by
  intro chunks
  induction chunks with
  | nil =>
      intro k idx total hn h1 h2 hk
      simp at hk
  | cons c cs ih =>
      intro k idx total hn h1 h2 hk
      have hnc : none ∉ c := hn c (List.mem_cons_self c cs)
      cases k with
      | zero =>
          have hf : raisesStatus (status idx) = true := by simpa using h2
          simp [runDeletes, hnc, hf]
      | succ j =>
          have hok : raisesStatus (status idx) = false := by
            simpa using h1 0 (Nat.succ_pos j)
          have h1s : ∀ i, i < j →
              raisesStatus (status (idx + 1 + i)) = false := by
            intro i hi
            have h := h1 (i + 1) (by omega)
            have harg : idx + (i + 1) = idx + 1 + i := by omega
            rw [harg] at h
            exact h
          have h2s : raisesStatus (status (idx + 1 + j)) = true := by
            have harg : idx + (j + 1) = idx + 1 + j := by omega
            rw [harg] at h2
            exact h2
          have ih2 := ih j (idx + 1) (total + c.length)
            (fun b hb => hn b (List.mem_cons_of_mem c hb)) h1s h2s
            (by simp at hk; omega)
          have harg2 : idx + 1 + j = idx + (j + 1) := by omega
          rw [harg2] at ih2
          simp [runDeletes, hnc, hok, ih2, List.take_succ_cons,
            Nat.add_assoc]

theorem runDeletes_all_ok (status : Nat → Nat)
    (hok : ∀ n, raisesStatus (status n) = false) :
    ∀ (chunks : List (List (Option String))) (idx total : Nat),
      (∀ b ∈ chunks, none ∉ b) →
      runDeletes status idx total chunks =
        ⟨chunks, .ok (total + (chunks.map List.length).sum)⟩ := by
  intro chunks
  induction chunks with
  | nil => intro idx total hn; simp [runDeletes]
  | cons c cs ih =>
      intro idx total hn
      have hnc : none ∉ c := hn c (List.mem_cons_self c cs)
      have ih2 := ih (idx + 1) (total + c.length)
        (fun b hb => hn b (List.mem_cons_of_mem c hb))
      simp [runDeletes, hnc, hok idx, ih2, Nat.add_assoc]

/-- Claim C4 counterexample: a delete call answered 304 is a non-2xx
response, yet it does not fail the chunk: `raise_for_status` (line 194)
raises only for statuses in [400, 600), so the chunk is counted as
deleted and the remaining chunks are all issued.  Here 101 identifiers
make two chunks, every DELETE is answered 304, both chunks are issued and
the run ends successfully with all 101 counted — the claim's "non-2xx
response raises and halts the remaining chunks" is false at this input. -/
theorem claim_c4_counterexample :
    is2xx 304 = false ∧ raisesStatus 304 = false ∧
    delete_batch_from_file ["Id"] (List.replicate 101 ["x"]) (fun _ => 304) =
      .run ⟨chunked 100 (List.replicate 101 (some "x")), .ok 101⟩ := by
  exact ⟨by decide, by decide, by decide⟩

/-- Claim C4 (amended): in `delete_batch_from_file`, for a CSV whose rows
all carry an `Id` value, when the DELETE for chunk `k` is the first to
receive a response with status in [400, 600), the `HTTPError` stops the
loop: a DELETE was issued exactly for chunks `0..k` (none after `k`), and
`total_deleted` at the moment of the raise equals the total size of the
chunks before `k`.  A non-2xx status below 400 (e.g. 304) does not raise,
so the loop continues past it. -/
theorem claim_c4 (header : List String) (rows : List (List String))
    (status : Nat → Nat) (k : Nat)
    (hid : "Id" ∈ header)
    (hcells : none ∉ extractIds header rows)
    (hbefore : ∀ i, i < k → raisesStatus (status i) = false)
    (hfail : raisesStatus (status k) = true)
    (hk : k < (chunked 100 (extractIds header rows)).length) :
    delete_batch_from_file header rows status =
      .run ⟨(chunked 100 (extractIds header rows)).take (k + 1),
            .error (.http (status k),
              (((chunked 100 (extractIds header rows)).take k).map
                List.length).sum)⟩ := by
  simp only [delete_batch_from_file, if_pos hid]
  rw [runDeletes_stops status _ k 0 0
    (fun b hb hnb => hcells (chunked_mem_mem hb hnb))
    (by simpa using hbefore) (by simpa using hfail) hk]
  simp

/-- Witness for C4 (amended): 101 identifiers make two chunks; with the
first DELETE answered 500, only chunk 0 is issued and the count at the
raise is 0. -/
theorem claim_c4_witness :
    delete_batch_from_file ["Id"] (List.replicate 101 ["x"]) (fun _ => 500)
      = .run ⟨(chunked 100 (extractIds ["Id"] (List.replicate 101 ["x"]))).take 1,
              .error (.http 500, 0)⟩ := by
  have h := claim_c4 ["Id"] (List.replicate 101 ["x"]) (fun _ => 500) 0
    (by decide) (by decide) (fun i hi => absurd hi (Nat.not_lt_zero i))
    (by decide) (by decide)
  simpa using h

/-- Claim C1 counterexample: a well-formed cache whose `expires_at` is far
in the future but whose `access_token` is the empty string.  The expiry
margin exceeds the skew, yet the cached token is NOT returned: Python's
`if cached:` treats the empty string as false, so a refresh is triggered
and the fresh token is returned.  The claim's "cached token returned iff
(expires_at − now) > SKEW" is therefore false at this input. -/
theorem claim_c1_counterexample :
    (100 : Int) - 0 > SKEW ∧
    get_access_token false (.record (some "") (some 100)) 0 "FRESH" =
      ⟨"FRESH", true⟩ := by
  exact ⟨by decide, by decide⟩

/-- Claim C1 (amended): for `force_refresh = false` and a well-formed
cache record, the cached token is returned (with no refresh) iff
`expires_at − now > SKEW` AND the cached token is non-empty (Python
truthiness); otherwise a refresh is triggered and its token is returned. -/
theorem claim_c1 (tok : String) (e now : Int) (fresh : String) :
    ((get_access_token false (.record (some tok) (some e)) now fresh).refreshed
        = false ↔ (e - now > SKEW ∧ tok ≠ "")) ∧
    (get_access_token false (.record (some tok) (some e)) now fresh).token =
      (if e - now > SKEW ∧ tok ≠ "" then tok else fresh) := by
  by_cases h1 : e - now > SKEW <;> by_cases h2 : tok = "" <;>
    simp [get_access_token, load_cached_token, h1, h2]

/-- Claim C5 counterexample: the archive fetch of `download_all_pages`
(line 153) is a direct `SESSION.get`, not a call through `api_request`, so
not every vendor HTTP call of the four action handlers inherits the
authenticated wrapper's retry-once-on-401 policy. -/
theorem claim_c5_counterexample :
    HttpCall.direct "GET" "/dl" ∈
      (download_all_pages "J1" ⟨1, none, true, "/dl"⟩ "out").calls ∧
    (HttpCall.direct "GET" "/dl").isViaApi = false := by
  exact ⟨by decide, rfl⟩

/-- Claim C5 (amended): the create-job and poll-status handlers issue all
their vendor HTTP calls through `api_request`; the download handler issues
its status fetch through `api_request` but fetches the archive with a
direct `SESSION.get` (line 153), and the delete-batch handler issues every
DELETE with a direct `SESSION.delete` (line 188) — both with a manually
attached Authorization header and without the retry-once-on-401 policy. -/
theorem claim_c5 (module_name job_id pre : String) (polls : Nat)
    (result : BulkJobResult) (batches : List (List String)) :
    (∀ c ∈ createBulkReadJobCalls module_name, c.isViaApi = true) ∧
    (∀ c ∈ checkJobStatusCalls job_id polls, c.isViaApi = true) ∧
    (download_all_pages job_id result pre).calls =
      [.viaApi "GET" ("/crm/bulk/v8/read/" ++ job_id),
       .direct "GET" result.download_url] ∧
    (∀ c ∈ deleteBatchCalls module_name batches, c.isViaApi = false) := by
  refine ⟨?_, ?_, rfl, ?_⟩
  · intro c hc
    simp only [createBulkReadJobCalls, List.mem_singleton] at hc
    rw [hc]
    rfl
  · intro c hc
    simp only [checkJobStatusCalls, List.mem_replicate] at hc
    rw [hc.2]
    rfl
  · intro c hc
    simp only [deleteBatchCalls, List.mem_map] at hc
    obtain ⟨b, _, rfl⟩ := hc
    rfl

/-- Witness for C5: a concrete DELETE of the batch handler is a direct
session call. -/
theorem claim_c5_witness :
    (HttpCall.direct "DELETE" "/crm/v8/Leads?ids=1&wf_trigger=true").isViaApi
      = false :=
  (claim_c5 "Leads" "J" "o" 1 ⟨1, none, false, "/d"⟩ [["1"]]).2.2.2
    (HttpCall.direct "DELETE" "/crm/v8/Leads?ids=1&wf_trigger=true")
    (by decide)

theorem check_job_status_first_terminal (state result : Nat → String) :
    ∀ (n i slept : Nat),
      (∀ j, j < n → isTerminalState (state (i + j)) = false) →
      isTerminalState (state (i + n)) = true →
      ∀ fuel, n < fuel →
        check_job_status state result fuel i slept =
          some ((if state (i + n) = "COMPLETED" then .ok (result (i + n))
                 else .error "Bulk read job falló"), slept + 5 * n) := by
  intro n
  induction n with
  | zero =>
      intro i slept h1 h2 fuel hf
      obtain ⟨f, rfl⟩ : ∃ f, fuel = f + 1 := ⟨fuel - 1, by omega⟩
      by_cases hc : state i = "COMPLETED"
      · simp [check_job_status, hc]
      · have hfl : (state i = "FAILURE" || state i = "FAILED") = true := by
          simp only [isTerminalState, Nat.add_zero] at h2
          simp only [Bool.or_eq_true, decide_eq_true_eq] at h2 ⊢
          tauto
        simp [check_job_status, hc, hfl]
  | succ m ih =>
      intro i slept h1 h2 fuel hf
      obtain ⟨f, rfl⟩ : ∃ f, fuel = f + 1 := ⟨fuel - 1, by omega⟩
      have hnt : isTerminalState (state i) = false := by
        simpa using h1 0 (Nat.succ_pos m)
      simp only [isTerminalState, Bool.or_eq_false_iff,
        decide_eq_false_iff_not] at hnt
      have h1s : ∀ j, j < m → isTerminalState (state (i + 1 + j)) = false := by
        intro j hj
        have h := h1 (j + 1) (by omega)
        have harg : i + (j + 1) = i + 1 + j := by omega
        rw [harg] at h
        exact h
      have h2s : isTerminalState (state (i + 1 + m)) = true := by
        have harg : i + (m + 1) = i + 1 + m := by omega
        rw [harg] at h2
        exact h2
      have hfl : (state i = "FAILURE" || state i = "FAILED") = false := by
        simp only [Bool.or_eq_false_iff, decide_eq_false_iff_not]
        exact ⟨hnt.1.2, hnt.2⟩
      have hrec := ih (i + 1) (slept + 5) h1s h2s f (by omega)
      simp only [check_job_status, if_neg hnt.1.1, hfl, Bool.false_eq_true,
        if_false, hrec]
      have harg : i + 1 + m = i + (m + 1) := by omega
      have hsl : slept + 5 + 5 * m = slept + 5 * (m + 1) := by omega
      rw [harg, hsl]

/-- Claim C6: `check_job_status` stops at the first terminal state polled:
it returns the job's `result` field if that state is `"COMPLETED"` and
raises `RuntimeError` if it is `"FAILURE"` or `"FAILED"`; every earlier
(non-terminal) poll sleeps a fixed 5 seconds before polling again, and
under the precondition that some polled state is terminal the loop
terminates. -/
theorem claim_c6 (state result : Nat → String) (n : Nat)
    (hbefore : ∀ j, j < n → isTerminalState (state j) = false)
    (hterm : isTerminalState (state n) = true) :
    (∀ fuel, n < fuel →
      check_job_status state result fuel 0 0 =
        some ((if state n = "COMPLETED" then .ok (result n)
               else .error "Bulk read job falló"), 5 * n)) ∧
    (∃ fuel out, check_job_status state result fuel 0 0 = some out) := by
  have h := check_job_status_first_terminal state result n 0 0
    (by simpa using hbefore) (by simpa using hterm)
  constructor
  · intro fuel hf
    have hh := h fuel hf
    simpa using hh
  · exact ⟨n + 1, _, h (n + 1) (by omega)⟩

/-- Witness for C6: first poll non-terminal, second poll `"COMPLETED"`:
the loop returns the result after one 5-second sleep. -/
theorem claim_c6_witness :
    check_job_status (fun i => if i = 0 then "QUEUED" else "COMPLETED")
      (fun _ => "RES") 2 0 0 = some (.ok "RES", 5) := by
  have h := (claim_c6 (fun i => if i = 0 then "QUEUED" else "COMPLETED")
    (fun _ => "RES") 1 (by decide) (by decide)).1 2 (by omega)
  exact h.trans (by decide)

/-- Claim C7 is a code bug: the dict literal at lines 107-111 is
`{name: name, "id": ..., "module": ...}` — the first KEY is the variable
`name`, so for the job name `"myjob"` the stored record has keys
`myjob`, `id`, `module` and no `name` key, contradicting the documented
record shape `{name, id, module}`. -/
theorem claim_c7_code_bug :
    "name" ∉ (dataToSave "myjob" "123456" "Tasks").map Prod.fst ∧
    (dataToSave "myjob" "123456" "Tasks").map Prod.fst =
      ["myjob", "id", "module"] ∧
    historyAfterCreate (some [[("name", "old"), ("id", "1"), ("module", "Deals")]])
        (dataToSave "myjob" "123456" "Tasks") =
      [[("name", "old"), ("id", "1"), ("module", "Deals")],
       [("myjob", "myjob"), ("id", "123456"), ("module", "Tasks")]] := by
  exact ⟨by decide, rfl, rfl⟩

/-- Claim C8: `download_all_pages` writes exactly one archive file, named
for the first result page, and makes exactly one direct download request;
its behaviour is invariant in `more_records` and `next_page_token`, so no
request is ever made for a subsequent page. -/
theorem claim_c8 (job_id : String) (result : BulkJobResult) (pre : String) :
    (download_all_pages job_id result pre).filesWritten =
      [pre ++ "_page_" ++ toString result.page ++ ".zip"] ∧
    (download_all_pages job_id result pre).calls.countP
      (fun c => !c.isViaApi) = 1 ∧
    (∀ b t, download_all_pages job_id
        { result with more_records := b, next_page_token := t } pre =
      download_all_pages job_id result pre) := by
  refine ⟨rfl, ?_, fun b t => rfl⟩
  simp [download_all_pages, List.countP_cons, HttpCall.isViaApi]

/-- Claim C9: `_load_cached_token` returns `None` — so `get_access_token`
falls through to a fresh token-endpoint refresh instead of raising — when
the cache file is missing, unreadable, not valid JSON, or lacks the
`expires_at` or `access_token` field. -/
theorem claim_c9 (now : Int) (fresh : String) :
    load_cached_token .missing now = none ∧
    load_cached_token .unreadable now = none ∧
    load_cached_token .badJson now = none ∧
    (∀ tok, load_cached_token (.record tok none) now = none) ∧
    (∀ e, load_cached_token (.record none (some e)) now = none) ∧
    (∀ cache, load_cached_token cache now = none →
      get_access_token false cache now fresh = ⟨fresh, true⟩) := by
  refine ⟨rfl, rfl, rfl, fun tok => rfl, fun e => ite_self none, ?_⟩
  intro cache h
  simp [get_access_token, h]

/-- Witness for C9: with a missing cache file, a refresh is triggered and
its token returned. -/
theorem claim_c9_witness :
    get_access_token false .missing 0 "F" = ⟨"F", true⟩ :=
  (claim_c9 0 "F").2.2.2.2.2 .missing rfl

theorem lastIdxOf_isSome_iff (k : String) :
    ∀ l : List String, (lastIdxOf k l).isSome = true ↔ k ∈ l := by
  intro l
  induction l with
  | nil => simp [lastIdxOf]
  | cons x xs ih =>
      simp only [lastIdxOf]
      cases h : lastIdxOf k xs with
      | some i =>
          rw [h] at ih
          simp only [Option.isSome_some, true_iff] at ih
          simp [List.mem_cons, ih]
      | none =>
          rw [h] at ih
          simp only [Option.isSome_none, Bool.false_eq_true, false_iff] at ih
          by_cases hx : x = k
          · simp [hx, List.mem_cons]
          · simp only [hx, if_false, List.mem_cons]
            simp only [Option.isSome_none, Bool.false_eq_true, false_iff]
            intro hmem
            rcases hmem with hmem | hmem
            · exact hx hmem.symm
            · exact ih hmem

theorem lastIdxOf_mem {k : String} {l : List String} {i : Nat}
    (h : lastIdxOf k l = some i) : k ∈ l := by
  rw [← lastIdxOf_isSome_iff k l, h]
  rfl

/-- Claim C10 counterexample: the header `["A", "Id"]` puts the `Id`
column at index 1; the second row `["x"]` is shorter, so its `Id` cell is
the `restval None`.  Even with every response a 200, the run raises
`TypeError` at `",".join(batch)` (line 186) before that batch's DELETE is
issued: nothing is deleted, although the claim asserts the `Id`-column
values are the identifiers deleted. -/
theorem claim_c10_counterexample :
    delete_batch_from_file ["A", "Id"] [["a", "1"], ["x"]] (fun _ => 200) =
      .run ⟨[], .error (.typeErr, 0)⟩ ∧
    (delete_batch_from_file ["A", "Id"] [["a", "1"], ["x"]]
        (fun _ => 200)).issued.flatten ≠
      [["a", "1"], ["x"]].map (fun r => r.get? 1) := by
  exact ⟨by decide, by decide⟩

/-- Claim C10 (amended): `delete_batch_from_file` raises the
`RuntimeError` — before issuing any delete call — exactly when the CSV
header lacks a column named exactly `"Id"` (capital I; membership of the
`String` `"Id"` is case-sensitive); and when the header has an `"Id"`
column (at last position `i` when duplicated, per `dict(zip(...))`
semantics) AND every row carries a value in that column, a run in which
every response status is below 400 issues batches whose concatenation is
exactly the `"Id"`-column values of the rows, deleting `rows.length`
records.  A row lacking its `Id` cell instead raises `TypeError` at
`",".join(batch)` before that batch's DELETE (see the counterexample). -/
theorem claim_c10 (header : List String) (rows : List (List String))
    (status : Nat → Nat) :
    (delete_batch_from_file header rows status = .headerError ↔
      "Id" ∉ header) ∧
    ("Id" ∉ header → (delete_batch_from_file header rows status).issued = []) ∧
    (∀ i, lastIdxOf "Id" header = some i →
      (∀ n, raisesStatus (status n) = false) →
      none ∉ rows.map (fun r => r.get? i) →
      delete_batch_from_file header rows status =
        .run ⟨chunked 100 (rows.map (fun r => r.get? i)),
              .ok (rows.map (fun r => r.get? i)).length⟩ ∧
      (delete_batch_from_file header rows status).issued.flatten =
        rows.map (fun r => r.get? i)) := by
  refine ⟨?_, ?_, ?_⟩
  · by_cases hid : "Id" ∈ header
    · simp [delete_batch_from_file, hid]
    · simp [delete_batch_from_file, hid]
  · intro hid
    simp [delete_batch_from_file, hid, DeleteOutcome.issued]
  · intro i hi hok hcells
    have hid : "Id" ∈ header := lastIdxOf_mem hi
    have hids : extractIds header rows = rows.map (fun r => r.get? i) := by
      simp [extractIds, hi]
    have hrun := runDeletes_all_ok status hok
      (chunked 100 (rows.map (fun r => r.get? i))) 0 0
      (fun b hb hnb => hcells (chunked_mem_mem hb hnb))
    have hsum : ((chunked 100 (rows.map (fun r => r.get? i))).map
        List.length).sum = (rows.map (fun r => r.get? i)).length := by
      rw [← List.length_flatten, chunked_flatten]
    constructor
    · simp only [delete_batch_from_file, if_pos hid, hids, hrun, hsum,
        Nat.zero_add]
    · simp only [delete_batch_from_file, if_pos hid, hids, hrun,
        DeleteOutcome.issued, chunked_flatten]

/-- Witness for C10 (amended): a lowercase `"id"` header is rejected with
no delete issued, while a header with an `"Id"` column and complete rows
has exactly its column values deleted. -/
theorem claim_c10_witness :
    delete_batch_from_file ["id"] [["5"]] (fun _ => 200) = .headerError ∧
    (delete_batch_from_file ["Name", "Id"] [["a", "1"], ["b", "2"]]
        (fun _ => 200)).issued.flatten = [some "1", some "2"] := by
  constructor
  · exact (claim_c10 ["id"] [["5"]] (fun _ => 200)).1.mpr (by decide)
  · have h := (claim_c10 ["Name", "Id"] [["a", "1"], ["b", "2"]]
      (fun _ => 200)).2.2 1 rfl (fun _ => rfl) (by decide)
    exact h.2.trans (by decide)
